import Mathlib

/-!
Verification of the pmf (Python Modelling Framework) core against its
specification.  The Python sources (pmf/core.py and pmf/adapters.py) are
shallowly embedded below: the object heap is explicit (association lists
from object ids to records), machine-level Python behaviour such as live
list iteration during dispatch, exception propagation out of callbacks, and
the TypeError fallback of the AllContent subtree walk are modelled
explicitly.  Adapter callbacks are external application code; where a claim
depends on callback behaviour the callback is a parameter of the model.
-/

namespace PMF

/-- The closed event-type set of Notification.EventTypes (core.py lines 14-22). -/
inductive EventType where
  | ADD
  | ADD_MANY
  | MOVE
  | MOVE_MANY
  | REMOVE
  | REMOVE_MANY
  | SET
  | SET_MANY
deriving DecidableEq, Repr

/-- Python values as far as the pmf core distinguishes them: None, references
to MObject / MList / MDict heap objects, raw (unwrapped) lists and dicts,
strings, integers, and slice objects.  Raw dict keys are modelled as strings,
which is what the spec and the demo code use. -/
inductive Value where
  | none
  | node (id : Nat)
  | vlist (id : Nat)
  | vdict (id : Nat)
  | rawList (xs : List Value)
  | rawDict (es : List (String × Value))
  | str (s : String)
  | int (n : Int)
  | slice (a b : Int)

/-- isinstance(v, MObject): MObject, MList and MDict instances. -/
def isMObject : Value → Bool
  | Value.node _ => true
  | Value.vlist _ => true
  | Value.vdict _ => true
  | _ => false

/-- A Notification record (core.py lines 10-47).  All slots are initialised
to None and only the keyword arguments of the constructing call are set. -/
structure Notification where
  notifier : Value
  eventType : Option EventType
  newValue : Value
  oldValue : Value
  position : Value
  feature : Option String

/-- An MObject instance (core.py lines 52-146).  Public attributes live in
attrs; attributes whose name starts with an underscore are stored directly
(core.py line 83) and are kept in privAttrs, except for the four fields set
by MObject.init, which are modelled structurally: mDeliver, mContainer,
mAdapters (adapter ids) and mContainment (the frozen containment set). -/
structure MObj where
  typeName : String
  attrs : List (String × Value)
  privAttrs : List (String × Value)
  mDeliver : Bool
  mContainer : Option Nat
  mAdapters : List Nat
  mContainment : List String

/-- An MList instance (core.py lines 151-315): the MObject fields plus the
underlying list elements and the three fields set by MList.init
(the owning container, the containment flag and the feature name).
Its own mContainment is the empty frozenset and is never consulted. -/
structure MListObj where
  elems : List Value
  mDeliver : Bool
  mContainer : Option Nat
  mAdapters : List Nat
  container : Option Nat
  containment : Bool
  feature : Option String

/-- An MDict instance (core.py lines 319-423), analogous to MListObj. -/
structure MDictObj where
  entries : List (String × Value)
  mDeliver : Bool
  mContainer : Option Nat
  mAdapters : List Nat
  container : Option Nat
  containment : Bool
  feature : Option String

/-- A NotificationAdapter or AllContentNotificationAdapter instance
(adapters.py): the accepted event types, the private target slot and
whether the instance is of the AllContent subclass.  The callback is
external application code and is not part of adapter state here. -/
structure AdapterObj where
  eventTypes : List EventType
  target : Option Value
  allContent : Bool

/-- The Python heap, restricted to the object kinds the pmf core touches.
nextId is the allocator for fresh object ids. -/
structure PState where
  nodes : List (Nat × MObj)
  lists : List (Nat × MListObj)
  dicts : List (Nat × MDictObj)
  adapters : List (Nat × AdapterObj)
  nextId : Nat

/-- Lookup in an association list (first binding wins, like attribute
dictionaries and our id-keyed heaps). -/
def alistGet {α β : Type} [BEq α] : List (α × β) → α → Option β
  | [], _ => Option.none
  | (k', v) :: t, k => if k' == k then some v else alistGet t k

/-- Update the first binding of a key, if present, by a function. -/
def alistUpd {α β : Type} [BEq α] : List (α × β) → α → (β → β) → List (α × β)
  | [], _, _ => []
  | (k', v) :: t, k, f => if k' == k then (k', f v) :: t else (k', v) :: alistUpd t k f

/-- Python dict/attribute assignment: replace the first binding of the key,
or append a new binding at the end (insertion order preserved). -/
def alistSet {α β : Type} [BEq α] : List (α × β) → α → β → List (α × β)
  | [], k, v => [(k, v)]
  | (k', v') :: t, k, v => if k' == k then (k', v) :: t else (k', v') :: alistSet t k v

/-- Python dict.pop: drop the first binding of the key. -/
def alistDel {α β : Type} [BEq α] : List (α × β) → α → List (α × β)
  | [], _ => []
  | (k', v') :: t, k => if k' == k then t else (k', v') :: alistDel t k

def getNode (st : PState) (id : Nat) : Option MObj := alistGet st.nodes id

def getList (st : PState) (id : Nat) : Option MListObj := alistGet st.lists id

def getDict (st : PState) (id : Nat) : Option MDictObj := alistGet st.dicts id

def getAdapter (st : PState) (id : Nat) : Option AdapterObj := alistGet st.adapters id

/-- The assignment obj.mContainer = c for an arbitrary value obj: a no-op
unless the value is an MObject / MList / MDict reference. -/
def setValContainer (st : PState) (v : Value) (c : Option Nat) : PState :=
  match v with
  | Value.node id =>
      { st with nodes := alistUpd st.nodes id (fun o => { o with mContainer := c }) }
  | Value.vlist id =>
      { st with lists := alistUpd st.lists id (fun o => { o with mContainer := c }) }
  | Value.vdict id =>
      { st with dicts := alistUpd st.dicts id (fun o => { o with mContainer := c }) }
  | _ => st

/-- MObject.mNotificationRequired (core.py lines 132-137):
len(self.mAdapters) > 0 and self.mDeliver. -/
def mNotificationRequired (adapters : List Nat) (deliver : Bool) : Bool :=
  decide (adapters.length > 0) && deliver

/-- MObject.mNotify (core.py lines 139-146) constructs one Notification when
required.  The construction step is modelled here; the per-adapter dispatch
loop (which invokes external callbacks) is modelled separately below, where
the claims are about dispatch itself. -/
def mNotifyEmit (adapters : List Nat) (deliver : Bool) (n : Notification) : List Notification :=
  if mNotificationRequired adapters deliver then [n] else []

/-- The public-key branch of MObject.setattr (core.py lines 84-110):
read the old value, clear old containment, wrap raw lists into MList and raw
dicts into MDict, store, set new containment, and emit a SET notification. -/
def setattrPub (st : PState) (selfId : Nat) (key : String) (value : Value) :
    PState × List Notification :=
  match getNode st selfId with
  | Option.none => (st, [])
  | some self0 =>
    let oldValue := (alistGet self0.attrs key).getD Value.none
    let st1 :=
      if isMObject oldValue && self0.mContainment.contains key then
        setValContainer st oldValue Option.none
      else st
    let wrapL : PState × Value :=
      match value with
      | Value.rawList xs =>
          let lid := st1.nextId
          ({ st1 with
              lists := st1.lists ++ [(lid,
                { elems := xs, mDeliver := true, mContainer := Option.none,
                  mAdapters := [], container := some selfId,
                  containment := self0.mContainment.contains key,
                  feature := some (self0.typeName ++ "." ++ key) })],
              nextId := lid + 1 },
           Value.vlist lid)
      | _ => (st1, value)
    let st2 := wrapL.1
    let wrapD : PState × Value :=
      match wrapL.2 with
      | Value.rawDict es =>
          let did := st2.nextId
          ({ st2 with
              dicts := st2.dicts ++ [(did,
                { entries := es, mDeliver := true, mContainer := Option.none,
                  mAdapters := [], container := Option.none,
                  containment := false, feature := Option.none })],
              nextId := did + 1 },
           Value.vdict did)
      | _ => (st2, wrapL.2)
    let st3 := wrapD.1
    let value2 := wrapD.2
    let st4 := { st3 with
      nodes := alistUpd st3.nodes selfId (fun o => { o with attrs := alistSet o.attrs key value2 }) }
    let st5 :=
      if isMObject value2 && self0.mContainment.contains key then
        setValContainer st4 value2 (some selfId)
      else st4
    let selfN := (getNode st5 selfId).getD self0
    let n : Notification :=
      { notifier := Value.node selfId, eventType := some EventType.SET,
        newValue := value2, oldValue := oldValue, position := Value.none,
        feature := some (self0.typeName ++ "." ++ key) }
    (st5, mNotifyEmit selfN.mAdapters selfN.mDeliver n)

/-- key.startswith("_"): whether the first character of the attribute name
is an underscore. -/
def startsWithUnderscore (key : String) : Bool :=
  match key.data with
  | [] => false
  | c :: _ => c == '_'

/-- MObject.setattr (core.py lines 78-110).  Attribute names starting with
an underscore are stored directly with no further effect (line 82-83). -/
def mobjSetattr (st : PState) (selfId : Nat) (key : String) (value : Value) :
    PState × List Notification :=
  if startsWithUnderscore key then
    ({ st with
        nodes := alistUpd st.nodes selfId
          (fun o => { o with privAttrs := alistSet o.privAttrs key value }) },
     [])
  else setattrPub st selfId key value

/-- MList.extend (core.py lines 200-209): extend the underlying list, set
the container back-reference of every extended value that is an MObject
(when the list has an owning container), then emit one ADD_MANY
notification whose position is slice(len(self)-len(values), len(self)-1),
computed after the extension. -/
def mlistExtend (st : PState) (lid : Nat) (values : List Value) :
    PState × List Notification :=
  match getList st lid with
  | Option.none => (st, [])
  | some l0 =>
    let st1 := { st with
      lists := alistUpd st.lists lid (fun l => { l with elems := l.elems ++ values }) }
    let st2 := values.foldl
      (fun s v => if isMObject v && l0.container.isSome then setValContainer s v l0.container else s)
      st1
    let lN := (getList st2 lid).getD l0
    let len : Int := lN.elems.length
    let n : Notification :=
      { notifier := Value.vlist lid, eventType := some EventType.ADD_MANY,
        newValue := Value.rawList values, oldValue := Value.none,
        position := Value.slice (len - values.length) (len - 1),
        feature := lN.feature }
    (st2, mNotifyEmit lN.mAdapters lN.mDeliver n)

/-- MList.insert (core.py lines 211-219).  Note that the body calls
list.append(self, value), not list.insert, and then reports the requested
index as the notification position. -/
def mlistInsert (st : PState) (lid : Nat) (key : Int) (value : Value) :
    PState × List Notification :=
  match getList st lid with
  | Option.none => (st, [])
  | some l0 =>
    let st1 := { st with
      lists := alistUpd st.lists lid (fun l => { l with elems := l.elems ++ [value] }) }
    let st2 :=
      if isMObject value && l0.container.isSome then setValContainer st1 value l0.container
      else st1
    let lN := (getList st2 lid).getD l0
    let n : Notification :=
      { notifier := Value.vlist lid, eventType := some EventType.ADD,
        newValue := value, oldValue := Value.none,
        position := Value.int key, feature := lN.feature }
    (st2, mNotifyEmit lN.mAdapters lN.mDeliver n)

/-- MDict.pop (core.py lines 381-390): read the old value with a None
default, pop with a default (so an absent key does not raise), clear
containment of a removed MObject value, emit one REMOVE notification with
the key as position, and return the popped value.  The returned triple is
(new state, emitted notifications, return value). -/
def mdictPop (st : PState) (did : Nat) (key : String) (dflt : Value) :
    PState × List Notification × Value :=
  match getDict st did with
  | Option.none => (st, [], dflt)
  | some d0 =>
    let oldValue := (alistGet d0.entries key).getD Value.none
    let popped : PState × Value :=
      match alistGet d0.entries key with
      | some x =>
          ({ st with dicts := alistUpd st.dicts did (fun d => { d with entries := alistDel d.entries key }) }, x)
      | Option.none => (st, dflt)
    let st1 := popped.1
    let st2 :=
      if isMObject oldValue && d0.container.isSome then setValContainer st1 oldValue Option.none
      else st1
    let dN := (getDict st2 did).getD d0
    let n : Notification :=
      { notifier := Value.vdict did, eventType := some EventType.REMOVE,
        newValue := Value.none, oldValue := oldValue,
        position := Value.str key, feature := Option.none }
    (st2, mNotifyEmit dN.mAdapters dN.mDeliver n, popped.2)

/-! ### Dispatch over the adapter list (MObject.mNotify, core.py lines 139-146)

The loop "for adapter in self.mAdapters: adapter.notify(notification)"
iterates over the live list object: a Python list iterator keeps a cursor i,
reads the element at index i, runs the body, and increments i, stopping when
i is at least the current length.  A callback that mutates the adapter list
therefore affects the iteration in progress.  Callbacks are external code;
for this model a callback's effect on the adapter list is one of: leave it
alone, add an adapter (MObject.mAddAdapter semantics: append if absent), or
remove an adapter (MObject.mRemoveAdapter semantics: remove first
occurrence if present).  The environment maps each adapter id to its
effect.  Fuel bounds the cursor walk; the Python loop itself need not
terminate when callbacks keep appending fresh adapters. -/

/-- Effect of one adapter callback on the notifying object's adapter list. -/
inductive DEffect where
  | keep
  | addA (j : Nat)
  | remA (j : Nat)
deriving DecidableEq, Repr

/-- Apply one callback effect to the adapter list: mAddAdapter appends only
if absent (core.py lines 117-118); mRemoveAdapter removes the first
occurrence if present (core.py lines 127-128). -/
def applyEffect (env : Nat → DEffect) (a : Nat) (cur : List Nat) : List Nat :=
  match env a with
  | DEffect.keep => cur
  | DEffect.addA j => if cur.contains j then cur else cur ++ [j]
  | DEffect.remA j => if cur.contains j then cur.erase j else cur

/-- The live for-loop of mNotify: invoke the adapter at cursor i of the
current (possibly mutated) list, apply its callback effect, advance the
cursor.  Returns the adapter ids invoked, in invocation order. -/
def runLive (env : Nat → DEffect) : Nat → Nat → List Nat → List Nat
  | 0, _, _ => []
  | fuel + 1, i, cur =>
    if h : i < cur.length then
      let a := cur.get ⟨i, h⟩
      a :: runLive env fuel (i + 1) (applyEffect env a cur)
    else []

/-- MObject.mNotify as seen by the adapters: if notification is required,
run the live dispatch loop over the adapter list. -/
def mNotifyLive (env : Nat → DEffect) (deliver : Bool) (ads : List Nat) (fuel : Nat) :
    List Nat :=
  if mNotificationRequired ads deliver then runLive env fuel 0 ads else []

/-! ### Dispatch with raising callbacks (error propagation, claim C8)

MObject.mNotify has no exception handler and neither do the mutating
operations that call it, so an exception raised by adapter.notify unwinds
through the for-loop and out of the mutating call.  Callbacks are modelled
as functions returning Except; the dispatch returns the invoked adapter ids
together with the outcome. -/

/-- The mNotify for-loop with raising callbacks: invoke each callback in
order, stopping at (and propagating) the first exception. -/
def dispatchExcept (cbs : List (Nat × (Notification → Except String Unit)))
    (n : Notification) : List Nat × Except String Unit :=
  match cbs with
  | [] => ([], Except.ok ())
  | (i, f) :: rest =>
    match f n with
    | Except.error e => ([i], Except.error e)
    | Except.ok _ =>
      let r := dispatchExcept rest n
      (i :: r.1, r.2)

/-- The Notification built by MList.append (core.py lines 194-198):
position is len(self)-1 computed after the append. -/
def appendNotificationOf (lid : Nat) (elems : List Value) (v : Value)
    (feature : Option String) : Notification :=
  { notifier := Value.vlist lid, eventType := some EventType.ADD,
    newValue := v, oldValue := Value.none,
    position := Value.int ((elems.length + 1 : Int) - 1), feature := feature }

/-- MList.append (core.py lines 190-198) on a list with no owning container,
with its adapters' callbacks attached: the element is appended first, then
mNotify dispatches to the callbacks; any exception propagates out as the
result of the whole call.  Returns (new elements, invoked ids, outcome). -/
def mlistAppendExc (lid : Nat) (elems : List Value) (deliver : Bool)
    (feature : Option String)
    (cbs : List (Nat × (Notification → Except String Unit))) (v : Value) :
    List Value × List Nat × Except String Unit :=
  let elems1 := elems ++ [v]
  let n := appendNotificationOf lid elems v feature
  if mNotificationRequired (cbs.map (fun p => p.1)) deliver then
    let r := dispatchExcept cbs n
    (elems1, r.1, r.2)
  else (elems1, [], Except.ok ())

/-! ### Adapters (adapters.py)

NotificationAdapter.notify filters by the accepted event-type set.
AllContentNotificationAdapter overrides notify: it forwards to the callback
unconditionally and then walks the notification's new and old values to
extend or shrink its subscribed subtree.  The recursive walk follows the
attributes of the visited object (dir(obj)); attribute values that are
bound methods or other non-MObject values make the recursive call a no-op,
so only the MObject-valued attributes matter and only those are enumerated
here.  The add walk skips attribute names that start with an underscore,
the remove walk does not, so the remove walk also follows the private
mContainer and container references.  Because mAddAdapter / mRemoveAdapter
assign the adapter's target property, and the AllContent override of that
property setter re-runs the walks, all of these are defined together as one
fuel-bounded interpreter. -/

/-- Python equality between the values that can appear in an adapter's
target slot (object references and None). -/
def refEq : Value → Value → Bool
  | Value.none, Value.none => true
  | Value.node a, Value.node b => a == b
  | Value.vlist a, Value.vlist b => a == b
  | Value.vdict a, Value.vdict b => a == b
  | _, _ => false

/-- The target slot content for a setTarget argument: Python None becomes
an empty slot. -/
def toOptTarget : Value → Option Value
  | Value.none => Option.none
  | v => some v

/-- The current adapter list of an MObject reference. -/
def getMAdapters (st : PState) (v : Value) : Option (List Nat) :=
  match v with
  | Value.node id => (getNode st id).map (fun o => o.mAdapters)
  | Value.vlist id => (getList st id).map (fun o => o.mAdapters)
  | Value.vdict id => (getDict st id).map (fun o => o.mAdapters)
  | _ => Option.none

/-- Overwrite the adapter list of an MObject reference. -/
def setMAdapters (st : PState) (v : Value) (l : List Nat) : PState :=
  match v with
  | Value.node id =>
      { st with nodes := alistUpd st.nodes id (fun o => { o with mAdapters := l }) }
  | Value.vlist id =>
      { st with lists := alistUpd st.lists id (fun o => { o with mAdapters := l }) }
  | Value.vdict id =>
      { st with dicts := alistUpd st.dicts id (fun o => { o with mAdapters := l }) }
  | _ => st

/-- Overwrite an adapter's target slot. -/
def setAdapterTarget (st : PState) (aid : Nat) (t : Option Value) : PState :=
  { st with adapters := alistUpd st.adapters aid (fun a => { a with target := t }) }

/-- The MObject-relevant attribute values the add walk visits: the public
instance attributes (underscore-prefixed names are skipped, adapters.py
line 52; methods and other non-MObject attributes are no-ops).  MList and
MDict instances expose no public non-callable attributes. -/
def publicAttrVals (st : PState) (v : Value) : List Value :=
  match v with
  | Value.node id => ((getNode st id).map (fun o => o.attrs.map (fun p => p.2))).getD []
  | _ => []

/-- The value held by an optional MObject back-reference, as seen by
getattr (None when the slot is empty). -/
def optRef : Option Nat → Value
  | some i => Value.node i
  | Option.none => Value.none

/-- The MObject-relevant attribute values the remove walk visits: unlike
the add walk it does not skip underscore-prefixed names (adapters.py
lines 59-61), so it also follows mContainer (and, for containers, the
owning container reference).  mAdapters, mDeliver, mContainment, feature
and the methods are not MObjects, so visiting them is a no-op. -/
def removeAttrVals (st : PState) (v : Value) : List Value :=
  match v with
  | Value.node id =>
      (((getNode st id).map
        (fun o => o.attrs.map (fun p => p.2) ++ o.privAttrs.map (fun p => p.2)
          ++ [optRef o.mContainer]))).getD []
  | Value.vlist id =>
      (((getList st id).map (fun o => [optRef o.mContainer, optRef o.container]))).getD []
  | Value.vdict id =>
      (((getDict st id).map (fun o => [optRef o.mContainer, optRef o.container]))).getD []
  | _ => []

/-- The five mutually recursive operations of the AllContent adapter
machinery: the recursive add walk, the recursive remove walk, the
AllContent setTarget property (adapters.py lines 41-46), and
MObject.mAddAdapter / mRemoveAdapter (core.py lines 112-130), which touch
the adapter's target property. -/
inductive ACmd where
  | addW (v : Value)
  | remW (v : Value)
  | setT (v : Value)
  | addAd (v : Value)
  | remAd (v : Value)

/-- Fuel-bounded interpreter for the AllContent adapter machinery; the fuel
models the Python call stack (the source has no cycle protection and can
exhaust the recursion limit on cyclic graphs). -/
def acRun (aid : Nat) : Nat → PState → ACmd → PState
  | 0, st, _ => st
  | fuel + 1, st, cmd =>
    match cmd with
    | ACmd.addAd v =>
      match getMAdapters st v with
      | Option.none => st
      | some l =>
        if l.contains aid then st
        else
          let st1 := setMAdapters st v (l ++ [aid])
          match getAdapter st1 aid with
          | Option.none => st1
          | some ad =>
            if ad.target.isNone then
              if ad.allContent then acRun aid fuel st1 (ACmd.setT v)
              else setAdapterTarget st1 aid (some v)
            else st1
    | ACmd.remAd v =>
      match getMAdapters st v with
      | Option.none => st
      | some l =>
        if l.contains aid then
          let st1 := setMAdapters st v (l.erase aid)
          match getAdapter st1 aid with
          | Option.none => st1
          | some ad =>
            if (match ad.target with | some w => refEq w v | Option.none => false) then
              if ad.allContent then acRun aid fuel st1 (ACmd.setT Value.none)
              else setAdapterTarget st1 aid Option.none
            else st1
        else st
    | ACmd.setT v =>
      match getAdapter st aid with
      | Option.none => st
      | some ad =>
        let st1 :=
          match ad.target with
          | some t => acRun aid fuel st (ACmd.remW t)
          | Option.none => st
        let st2 := setAdapterTarget st1 aid (toOptTarget v)
        acRun aid fuel st2 (ACmd.addW v)
    | ACmd.addW v =>
      if isMObject v then
        let st1 := acRun aid fuel st (ACmd.addAd v)
        (publicAttrVals st1 v).foldl (fun s a => acRun aid fuel s (ACmd.addW a)) st1
      else st
    | ACmd.remW v =>
      if isMObject v then
        let st1 := acRun aid fuel st (ACmd.remAd v)
        (removeAttrVals st1 v).foldl (fun s a => acRun aid fuel s (ACmd.remW a)) st1
      else st

/-- Whether NotificationAdapter.notify (adapters.py lines 27-30) reaches
the callback: an event type outside the accepted set returns early.  A
notification with an unset event type is never in the set. -/
def eventAccepted (ets : List EventType) (n : Notification) : Bool :=
  match n.eventType with
  | some et => ets.contains et
  | Option.none => false

/-- NotificationAdapter.notify: the notification handed to the callback,
or nothing when the event type is filtered out. -/
def directNotify (ets : List EventType) (n : Notification) : Option Notification :=
  if eventAccepted ets n then some n else Option.none

/-- Which values an iteration "for nv in value" yields, or nothing when the
value raises TypeError (MObject instances, ints, slices, None are not
iterable; lists yield elements, dicts yield keys, strings yield one-char
strings). -/
def iterElemsV (st : PState) (v : Value) : Option (List Value) :=
  match v with
  | Value.rawList xs => some xs
  | Value.vlist id => some (((getList st id).map (fun l => l.elems)).getD [])
  | Value.rawDict es => some (es.map (fun e => Value.str e.1))
  | Value.vdict id =>
      some (((getDict st id).map (fun d => d.entries.map (fun e => Value.str e.1))).getD [])
  | Value.str s => some (s.toList.map (fun c => Value.str (String.mk [c])))
  | _ => Option.none

/-- The subscription-update step of AllContentNotificationAdapter.notify
(adapters.py lines 65-74), run after the callback: extend the subtree from
the new value (iterating it, or treating it as a single element on
TypeError), then shrink from the old value; in the old value's TypeError
branch the source passes notification.newValue to the remove walk. -/
def allContentUpdate (st : PState) (aid : Nat) (fuel : Nat) (n : Notification) : PState :=
  let st1 :=
    match n.newValue with
    | Value.none => st
    | v =>
      match iterElemsV st v with
      | some es => es.foldl (fun s e => acRun aid fuel s (ACmd.addW e)) st
      | Option.none => acRun aid fuel st (ACmd.addW v)
  match n.oldValue with
  | Value.none => st1
  | v =>
    match iterElemsV st1 v with
    | some es => es.foldl (fun s e => acRun aid fuel s (ACmd.remW e)) st1
    | Option.none => acRun aid fuel st1 (ACmd.remW n.newValue)

/-- AllContentNotificationAdapter.notify (adapters.py lines 63-74): the
callback is invoked unconditionally on its first line (the accepted
event-type set of the adapter is not consulted), then the subscription
update runs.  Returns the new state and whether the callback was invoked. -/
def allContentNotify (st : PState) (aid : Nat) (ets : List EventType)
    (n : Notification) (fuel : Nat) : PState × Bool :=
  (allContentUpdate st aid fuel n, true)

/-! ### Auxiliary semantic definitions and concrete fixtures -/

/-- Which indices a Python slice object denotes when applied to a sequence:
slice(a, b) covers exactly the indices j with a <= j < b (half-open). -/
def sliceMem (a b j : Int) : Prop := a ≤ j ∧ j < b

/-- Everything in an MListObj except the mContainer field (the only field a
containment back-reference assignment can change). -/
def mlistShape (l : MListObj) :
    List Value × Bool × List Nat × Option Nat × Bool × Option String :=
  (l.elems, l.mDeliver, l.mAdapters, l.container, l.containment, l.feature)

/-- Everything in an MObj except the mContainer field. -/
def nodeRest (o : MObj) :
    String × List (String × Value) × List (String × Value) × Bool × List Nat × List String :=
  (o.typeName, o.attrs, o.privAttrs, o.mDeliver, o.mAdapters, o.mContainment)

/-- Everything in an MDictObj except the mContainer field. -/
def dictRest (d : MDictObj) :
    List (String × Value) × Bool × List Nat × Option Nat × Bool × Option String :=
  (d.entries, d.mDeliver, d.mAdapters, d.container, d.containment, d.feature)

/-- Step 2 of setattrPub in isolation: clear the old value's containment
back-reference when the old value is an MObject under a containment key. -/
def clearOldStep (st : PState) (self0 : MObj) (k : String) : PState :=
  if isMObject ((alistGet self0.attrs k).getD Value.none) && self0.mContainment.contains k then
    setValContainer st ((alistGet self0.attrs k).getD Value.none) Option.none
  else st

/-- Step 4 of setattrPub in isolation: store the (possibly wrapped) value
under the key in the assigned node's attribute dictionary. -/
def storeStep (st : PState) (a : Nat) (k : String) (v : Value) : PState :=
  { st with nodes := alistUpd st.nodes a (fun o => { o with attrs := alistSet o.attrs k v }) }

/-- The MDict produced by MDict(value) in setattr (core.py line 99 with
MDict.init, lines 326-331): default arguments, so no owning container,
no containment flag and no feature. -/
def dictInit (es : List (String × Value)) : MDictObj :=
  { entries := es, mDeliver := true, mContainer := Option.none, mAdapters := [],
    container := Option.none, containment := false, feature := Option.none }

/-- A callback that always succeeds. -/
def cbOkW : Notification → Except String Unit := fun _ => Except.ok ()

/-- A callback that raises. -/
def cbBoomW : Notification → Except String Unit := fun _ => Except.error "boom"

/-- Callback environment where adapter 0 registers a new adapter 1 during
dispatch and every other adapter leaves the list alone. -/
def envW2 : Nat → DEffect := fun a => if a == 0 then DEffect.addA 1 else DEffect.keep

/-- A three-node heap: node 0 (type "A") declares the containment attribute
"child"; nodes 1 and 2 are plain. -/
def stW1 : PState :=
  { nodes :=
      [(0, { typeName := "A", attrs := [], privAttrs := [], mDeliver := true,
             mContainer := Option.none, mAdapters := [], mContainment := ["child"] }),
       (1, { typeName := "B", attrs := [], privAttrs := [], mDeliver := true,
             mContainer := Option.none, mAdapters := [], mContainment := [] }),
       (2, { typeName := "C", attrs := [], privAttrs := [], mDeliver := true,
             mContainer := Option.none, mAdapters := [], mContainment := [] })],
    lists := [], dicts := [], adapters := [], nextId := 3 }

/-- A single node of type "T" with no attributes; the allocator is at 1. -/
def stW5 : PState :=
  { nodes :=
      [(0, { typeName := "T", attrs := [], privAttrs := [], mDeliver := true,
             mContainer := Option.none, mAdapters := [], mContainment := [] })],
    lists := [], dicts := [], adapters := [], nextId := 1 }

/-- A bound notifying list holding ["a", "b"] with one registered adapter. -/
def stW6 : PState :=
  { nodes := [], dicts := [], adapters := [], nextId := 1,
    lists :=
      [(0, { elems := [Value.str "a", Value.str "b"], mDeliver := true,
             mContainer := Option.none, mAdapters := [7], container := Option.none,
             containment := false, feature := some "PO.items" })] }

/-- An empty bound notifying list with one registered adapter. -/
def stW7 : PState :=
  { nodes := [], dicts := [], adapters := [], nextId := 1,
    lists :=
      [(0, { elems := [], mDeliver := true, mContainer := Option.none,
             mAdapters := [3], container := Option.none, containment := false,
             feature := Option.none })] }

/-- A notifying map holding one entry "a" with one registered adapter. -/
def stW10 : PState :=
  { nodes := [], lists := [], adapters := [], nextId := 1,
    dicts :=
      [(0, { entries := [("a", Value.int 1)], mDeliver := true,
             mContainer := Option.none, mAdapters := [5], container := Option.none,
             containment := false, feature := Option.none })] }

/-- A heap with one node (id 1) subscribed to the AllContent adapter 0,
whose target is that node. -/
def acStW : PState :=
  { nodes :=
      [(1, { typeName := "Item", attrs := [], privAttrs := [], mDeliver := true,
             mContainer := Option.none, mAdapters := [0], mContainment := [] })],
    lists := [], dicts := [],
    adapters :=
      [(0, { eventTypes := [EventType.SET], target := some (Value.node 1),
             allContent := true })],
    nextId := 2 }

/-- A notification with event type ADD (not accepted by a SET-only adapter). -/
def nW3 : Notification :=
  { notifier := Value.node 1, eventType := some EventType.ADD,
    newValue := Value.none, oldValue := Value.none, position := Value.none,
    feature := Option.none }

/-- A REMOVE notification whose old value is the single (non-iterable)
node 1 and whose new value is None. -/
def nW4 : Notification :=
  { notifier := Value.node 1, eventType := some EventType.REMOVE,
    newValue := Value.none, oldValue := Value.node 1, position := Value.none,
    feature := Option.none }

/-! ### Association-list and heap lemmas -/

section AListLemmas

variable {α β : Type} [BEq α] [LawfulBEq α] [DecidableEq α]

theorem alistGet_upd (l : List (α × β)) (k : α) (f : β → β) (j : α) :
    alistGet (alistUpd l k f) j =
      if j = k then (alistGet l k).map f else alistGet l j := by
  induction l with
  | nil => by_cases h : j = k <;> simp [alistUpd, alistGet, h]
  | cons p t ih =>
    obtain ⟨k1, v⟩ := p
    by_cases h1 : k1 = k
    · subst h1
      by_cases h2 : j = k1
      · subst h2
        simp [alistUpd, alistGet]
      · have h2s : ¬ k1 = j := fun hh => h2 (Eq.symm hh)
        simp [alistUpd, alistGet, h2, h2s, ih]
    · by_cases h2 : j = k1
      · subst h2
        have h3 : ¬ j = k := h1
        simp [alistUpd, alistGet, h1, h3, ih]
      · have h2s : ¬ k1 = j := fun hh => h2 (Eq.symm hh)
        simp [alistUpd, alistGet, h1, h2, h2s, ih]

theorem alistGet_set (l : List (α × β)) (k : α) (v : β) (j : α) :
    alistGet (alistSet l k v) j =
      if j = k then some v else alistGet l j := by
  induction l with
  | nil =>
    by_cases h : j = k
    · simp [alistSet, alistGet, h]
    · have hs : ¬ k = j := fun hh => h (Eq.symm hh)
      simp [alistSet, alistGet, h, hs]
  | cons p t ih =>
    obtain ⟨k1, v1⟩ := p
    by_cases h1 : k1 = k
    · subst h1
      by_cases h2 : j = k1
      · subst h2
        simp [alistSet, alistGet]
      · have h2s : ¬ k1 = j := fun hh => h2 (Eq.symm hh)
        simp [alistSet, alistGet, h2, h2s, ih]
    · by_cases h2 : j = k1
      · subst h2
        have h3 : ¬ j = k := h1
        simp [alistSet, alistGet, h1, h3, ih]
      · have h2s : ¬ k1 = j := fun hh => h2 (Eq.symm hh)
        simp [alistSet, alistGet, h1, h2, h2s, ih]

theorem alistGet_append_fresh (l : List (α × β)) (k : α) (v : β)
    (h : alistGet l k = Option.none) :
    alistGet (l ++ [(k, v)]) k = some v := by
  induction l with
  | nil => simp [alistGet]
  | cons p t ih =>
    obtain ⟨k1, v1⟩ := p
    by_cases h1 : k1 = k
    · simp [alistGet, h1] at h
    · simp [alistGet, h1] at h ⊢
      exact ih h

theorem alistGet_append_other (l : List (α × β)) (k : α) (v : β) (j : α)
    (h : j ≠ k) :
    alistGet (l ++ [(k, v)]) j = alistGet l j := by
  induction l with
  | nil =>
    have h2 : ¬ k = j := fun hh => h hh.symm
    simp [alistGet, h2]
  | cons p t ih =>
    obtain ⟨k1, v1⟩ := p
    by_cases h1 : k1 = j <;> simp [alistGet, h1, ih]

end AListLemmas

theorem getNode_updNodes (st : PState) (a : Nat) (f : MObj → MObj) (j : Nat) :
    getNode { st with nodes := alistUpd st.nodes a f } j =
      if j = a then (getNode st a).map f else getNode st j := by
  simp [getNode, alistGet_upd]

theorem getList_updLists (st : PState) (a : Nat) (f : MListObj → MListObj) (j : Nat) :
    getList { st with lists := alistUpd st.lists a f } j =
      if j = a then (getList st a).map f else getList st j := by
  simp [getList, alistGet_upd]

theorem getDict_updDicts (st : PState) (a : Nat) (f : MDictObj → MDictObj) (j : Nat) :
    getDict { st with dicts := alistUpd st.dicts a f } j =
      if j = a then (getDict st a).map f else getDict st j := by
  simp [getDict, alistGet_upd]

theorem isSome_eq_of_map_eq {α β : Type} (f : α → β) (x y : Option α)
    (h : x.map f = y.map f) : x.isSome = y.isSome := by
  cases hx : x <;> cases hy : y
  · rfl
  · rw [hx, hy] at h; simp at h
  · rw [hx, hy] at h; simp at h
  · rfl

theorem getNode_setValContainer_rest (st : PState) (v : Value) (c : Option Nat) (j : Nat) :
    ((getNode (setValContainer st v c) j).map nodeRest) = (getNode st j).map nodeRest := by
  cases v <;> try rfl
  case node i =>
    simp only [setValContainer]
    rw [getNode_updNodes]
    by_cases h : j = i
    · subst h; rw [if_pos rfl, Option.map_map]; rfl
    · rw [if_neg h]

theorem getList_setValContainer_shape (st : PState) (v : Value) (c : Option Nat) (lid : Nat) :
    ((getList (setValContainer st v c) lid).map mlistShape) = (getList st lid).map mlistShape := by
  cases v <;> try rfl
  case vlist i =>
    simp only [setValContainer]
    rw [getList_updLists]
    by_cases h : lid = i
    · subst h; rw [if_pos rfl, Option.map_map]; rfl
    · rw [if_neg h]

theorem getDict_setValContainer_rest (st : PState) (v : Value) (c : Option Nat) (did : Nat) :
    ((getDict (setValContainer st v c) did).map dictRest) = (getDict st did).map dictRest := by
  cases v <;> try rfl
  case vdict i =>
    simp only [setValContainer]
    rw [getDict_updDicts]
    by_cases h : did = i
    · subst h; rw [if_pos rfl, Option.map_map]; rfl
    · rw [if_neg h]

theorem getNode_setValContainer_node_self (st : PState) (i : Nat) (c : Option Nat) :
    getNode (setValContainer st (Value.node i) c) i =
      (getNode st i).map (fun o => { o with mContainer := c }) := by
  simp only [setValContainer]
  rw [getNode_updNodes, if_pos rfl]

theorem getNode_setValContainer_node_ne (st : PState) (i : Nat) (c : Option Nat) (j : Nat)
    (h : j ≠ i) :
    getNode (setValContainer st (Value.node i) c) j = getNode st j := by
  simp only [setValContainer]
  rw [getNode_updNodes, if_neg h]

theorem nextId_setValContainer (st : PState) (v : Value) (c : Option Nat) :
    (setValContainer st v c).nextId = st.nextId := by
  cases v <;> rfl

theorem getNode_clearOldStep_rest (st : PState) (self0 : MObj) (k : String) (j : Nat) :
    ((getNode (clearOldStep st self0 k) j).map nodeRest) = (getNode st j).map nodeRest := by
  rw [clearOldStep]
  by_cases hc : (isMObject ((alistGet self0.attrs k).getD Value.none)
      && self0.mContainment.contains k) = true
  · rw [if_pos hc, getNode_setValContainer_rest]
  · rw [if_neg hc]

theorem getNode_clearOldStep_isSome (st : PState) (self0 : MObj) (k : String) (j : Nat) :
    (getNode (clearOldStep st self0 k) j).isSome = (getNode st j).isSome :=
  isSome_eq_of_map_eq nodeRest _ _ (getNode_clearOldStep_rest st self0 k j)

theorem getDict_clearOldStep_rest (st : PState) (self0 : MObj) (k : String) (j : Nat) :
    ((getDict (clearOldStep st self0 k) j).map dictRest) = (getDict st j).map dictRest := by
  rw [clearOldStep]
  by_cases hc : (isMObject ((alistGet self0.attrs k).getD Value.none)
      && self0.mContainment.contains k) = true
  · rw [if_pos hc, getDict_setValContainer_rest]
  · rw [if_neg hc]

theorem nextId_clearOldStep (st : PState) (self0 : MObj) (k : String) :
    (clearOldStep st self0 k).nextId = st.nextId := by
  rw [clearOldStep]
  by_cases hc : (isMObject ((alistGet self0.attrs k).getD Value.none)
      && self0.mContainment.contains k) = true
  · rw [if_pos hc, nextId_setValContainer]
  · rw [if_neg hc]

theorem dicts_clearOldStep_alistGet (st : PState) (self0 : MObj) (k : String) (j : Nat)
    (h : getDict st j = Option.none) :
    getDict (clearOldStep st self0 k) j = Option.none := by
  have hrest := getDict_clearOldStep_rest st self0 k j
  rw [h] at hrest
  cases hx : getDict (clearOldStep st self0 k) j
  · rfl
  · rw [hx] at hrest; simp at hrest

theorem getNode_storeStep (st : PState) (a : Nat) (k : String) (v : Value) (j : Nat) :
    getNode (storeStep st a k v) j =
      if j = a then (getNode st a).map (fun o => { o with attrs := alistSet o.attrs k v })
      else getNode st j := by
  rw [storeStep, getNode_updNodes]

theorem mContainer_storeStep (st : PState) (a : Nat) (k : String) (v : Value) (j : Nat) :
    ((getNode (storeStep st a k v) j).map (fun o => o.mContainer))
      = (getNode st j).map (fun o => o.mContainer) := by
  rw [getNode_storeStep]
  by_cases h : j = a
  · subst h; rw [if_pos rfl, Option.map_map]; rfl
  · rw [if_neg h]

theorem isSome_storeStep (st : PState) (a : Nat) (k : String) (v : Value) (j : Nat) :
    (getNode (storeStep st a k v) j).isSome = (getNode st j).isSome := by
  rw [getNode_storeStep]
  by_cases h : j = a
  · subst h; rw [if_pos rfl, Option.isSome_map']
  · rw [if_neg h]

/-- setattrPub applied to a Node value, written as its sequence of steps:
no wrapping happens, so the effect is clear-old-containment, store, and
containment assignment for the new node under a containment key, followed
by the SET notification. -/
theorem setattrPub_node_unfold (st : PState) (a b : Nat) (k : String) (self0 : MObj)
    (ha : getNode st a = some self0) :
    setattrPub st a k (Value.node b) =
      (let stS := storeStep (clearOldStep st self0 k) a k (Value.node b)
       let stF := if self0.mContainment.contains k then
           setValContainer stS (Value.node b) (some a)
         else stS
       let selfN := (getNode stF a).getD self0
       (stF,
        mNotifyEmit selfN.mAdapters selfN.mDeliver
          { notifier := Value.node a, eventType := some EventType.SET,
            newValue := Value.node b,
            oldValue := (alistGet self0.attrs k).getD Value.none,
            position := Value.none,
            feature := some (self0.typeName ++ "." ++ k) })) := by
  unfold setattrPub
  rw [ha]
  rfl

/-- setattrPub applied to a raw dict value, written as its sequence of
steps: clear old containment, allocate the MDict with default bindings
(dictInit), store the MDict reference, then the containment assignment
touches only the MObject-level mContainer of the new dict. -/
theorem setattrPub_rawdict_unfold (st : PState) (a : Nat) (k : String)
    (es : List (String × Value)) (self0 : MObj)
    (ha : getNode st a = some self0) :
    setattrPub st a k (Value.rawDict es) =
      (let st1 := clearOldStep st self0 k
       let st3 := { st1 with dicts := st1.dicts ++ [(st1.nextId, dictInit es)], nextId := st1.nextId + 1 }
       let stS := storeStep st3 a k (Value.vdict st1.nextId)
       let stF := if self0.mContainment.contains k then
           setValContainer stS (Value.vdict st1.nextId) (some a)
         else stS
       let selfN := (getNode stF a).getD self0
       (stF,
        mNotifyEmit selfN.mAdapters selfN.mDeliver
          { notifier := Value.node a, eventType := some EventType.SET,
            newValue := Value.vdict st1.nextId,
            oldValue := (alistGet self0.attrs k).getD Value.none,
            position := Value.none,
            feature := some (self0.typeName ++ "." ++ k) })) := by
  unfold setattrPub
  rw [ha]
  rfl

/-- After setattr with a Node value under a containment key, the stored
node's container back-reference points at the assigning node. -/
theorem setattr_node_sets_container (st : PState) (a b : Nat) (k : String) (self0 : MObj)
    (ha : getNode st a = some self0)
    (hpub : startsWithUnderscore k = false)
    (hcont : self0.mContainment.contains k = true)
    (hb : (getNode st b).isSome = true) :
    ((getNode (mobjSetattr st a k (Value.node b)).1 b).map (fun o => o.mContainer))
      = some (some a) := by
  rw [mobjSetattr, hpub]
  simp only [Bool.false_eq_true, if_false]
  rw [setattrPub_node_unfold st a b k self0 ha]
  dsimp only
  rw [if_pos hcont, getNode_setValContainer_node_self, Option.map_map]
  have hs : (getNode (storeStep (clearOldStep st self0 k) a k (Value.node b)) b).isSome = true := by
    rw [isSome_storeStep, getNode_clearOldStep_isSome]
    exact hb
  obtain ⟨o, ho⟩ := Option.isSome_iff_exists.mp hs
  rw [ho]
  rfl

/-- After setattr overwrites a containment attribute that held node b with
a different node c, node b's container back-reference is cleared. -/
theorem setattr_node_clears_old (st : PState) (a b c : Nat) (k : String) (self0 : MObj)
    (ha : getNode st a = some self0)
    (hpub : startsWithUnderscore k = false)
    (hcont : self0.mContainment.contains k = true)
    (hold : alistGet self0.attrs k = some (Value.node b))
    (hb : (getNode st b).isSome = true)
    (hbc : b ≠ c) :
    ((getNode (mobjSetattr st a k (Value.node c)).1 b).map (fun o => o.mContainer))
      = some Option.none := by
  rw [mobjSetattr, hpub]
  simp only [Bool.false_eq_true, if_false]
  rw [setattrPub_node_unfold st a c k self0 ha]
  dsimp only
  rw [if_pos hcont, getNode_setValContainer_node_ne _ c _ b hbc, mContainer_storeStep]
  have hclear : clearOldStep st self0 k = setValContainer st (Value.node b) Option.none := by
    rw [clearOldStep, hold]
    have hcond : (isMObject ((some (Value.node b)).getD Value.none)
        && self0.mContainment.contains k) = true := by
      rw [hcont]; rfl
    rw [if_pos hcond]
    rfl
  rw [hclear, getNode_setValContainer_node_self, Option.map_map]
  obtain ⟨o, ho⟩ := Option.isSome_iff_exists.mp hb
  rw [ho]
  rfl

/-- After setattr with a Node value, the assigned node's attribute table
has the key bound to that node and all its other non-container fields are
unchanged. -/
theorem setattr_node_stores (st : PState) (a b : Nat) (k : String) (self0 : MObj)
    (ha : getNode st a = some self0)
    (hpub : startsWithUnderscore k = false) :
    ((getNode (mobjSetattr st a k (Value.node b)).1 a).map nodeRest)
      = some (self0.typeName, alistSet self0.attrs k (Value.node b), self0.privAttrs,
          self0.mDeliver, self0.mAdapters, self0.mContainment) := by
  rw [mobjSetattr, hpub]
  simp only [Bool.false_eq_true, if_false]
  rw [setattrPub_node_unfold st a b k self0 ha]
  dsimp only
  have hF : ∀ X : PState,
      ((getNode (if self0.mContainment.contains k then
          setValContainer X (Value.node b) (some a) else X) a).map nodeRest)
        = (getNode X a).map nodeRest := by
    intro X
    by_cases hc : self0.mContainment.contains k = true
    · rw [if_pos hc, getNode_setValContainer_rest]
    · rw [if_neg hc]
  rw [hF, getNode_storeStep, if_pos rfl, Option.map_map]
  have hrest := getNode_clearOldStep_rest st self0 k a
  rw [ha] at hrest
  obtain ⟨o, ho, hor⟩ := Option.map_eq_some'.mp hrest
  rw [ho, Option.map_some']
  simp only [nodeRest, Prod.mk.injEq] at hor
  simp only [Function.comp, nodeRest, Prod.mk.injEq, Option.some.injEq]
  obtain ⟨e1, e2, e3, e4, e5, e6⟩ := hor
  exact ⟨e1, by rw [e2], e3, e4, e5, e6⟩

/-- setattr with a Node value never adds or removes heap nodes. -/
theorem setattr_node_isSome (st : PState) (a b : Nat) (k : String) (self0 : MObj)
    (ha : getNode st a = some self0)
    (hpub : startsWithUnderscore k = false) (j : Nat) :
    (getNode (mobjSetattr st a k (Value.node b)).1 j).isSome = (getNode st j).isSome := by
  rw [mobjSetattr, hpub]
  simp only [Bool.false_eq_true, if_false]
  rw [setattrPub_node_unfold st a b k self0 ha]
  dsimp only
  have hF : ∀ X : PState,
      (getNode (if self0.mContainment.contains k then
          setValContainer X (Value.node b) (some a) else X) j).isSome
        = (getNode X j).isSome := by
    intro X
    by_cases hc : self0.mContainment.contains k = true
    · rw [if_pos hc]
      exact isSome_eq_of_map_eq nodeRest _ _ (getNode_setValContainer_rest X (Value.node b) (some a) j)
    · rw [if_neg hc]
  rw [hF, isSome_storeStep, getNode_clearOldStep_isSome]

theorem getNode_setDicts (st : PState) (ds : List (Nat × MDictObj)) (ni : Nat) (j : Nat) :
    getNode { st with dicts := ds, nextId := ni } j = getNode st j := rfl

theorem getDict_setDicts (st : PState) (ds : List (Nat × MDictObj)) (ni : Nat) (j : Nat) :
    getDict { st with dicts := ds, nextId := ni } j = alistGet ds j := rfl

theorem getDict_storeStep (st : PState) (a : Nat) (k : String) (v : Value) (j : Nat) :
    getDict (storeStep st a k v) j = getDict st j := rfl

/-! ### Claim C1: containment attribute assignment and reassignment -/

/-- C1: for a node A with containment attribute k and nodes B, C with
B distinct from C: after A.k = B, B's container is A; after a subsequent
A.k = C, B's container is cleared to null and C's container is A. -/
theorem containment_attr_reassignment (st : PState) (a b c : Nat) (k : String)
    (objA : MObj)
    (ha : getNode st a = some objA)
    (hpub : startsWithUnderscore k = false)
    (hcont : objA.mContainment.contains k = true)
    (hb : (getNode st b).isSome = true)
    (hc : (getNode st c).isSome = true)
    (hbc : b ≠ c) :
    ((getNode (mobjSetattr st a k (Value.node b)).1 b).map (fun o => o.mContainer))
        = some (some a)
    ∧ ((getNode (mobjSetattr (mobjSetattr st a k (Value.node b)).1 a k
          (Value.node c)).1 b).map (fun o => o.mContainer)) = some Option.none
    ∧ ((getNode (mobjSetattr (mobjSetattr st a k (Value.node b)).1 a k
          (Value.node c)).1 c).map (fun o => o.mContainer)) = some (some a) := by
  have hstore := setattr_node_stores st a b k objA ha hpub
  obtain ⟨o1, ho1, ho1r⟩ := Option.map_eq_some'.mp hstore
  simp only [nodeRest, Prod.mk.injEq] at ho1r
  obtain ⟨f1, f2, f3, f4, f5, f6⟩ := ho1r
  have hb1 : (getNode (mobjSetattr st a k (Value.node b)).1 b).isSome = true := by
    rw [setattr_node_isSome st a b k objA ha hpub b]
    exact hb
  have hc1 : (getNode (mobjSetattr st a k (Value.node b)).1 c).isSome = true := by
    rw [setattr_node_isSome st a b k objA ha hpub c]
    exact hc
  have hcont1 : o1.mContainment.contains k = true := by
    rw [f6]; exact hcont
  have hold1 : alistGet o1.attrs k = some (Value.node b) := by
    rw [f2, alistGet_set, if_pos rfl]
  refine ⟨?_, ?_, ?_⟩
  · exact setattr_node_sets_container st a b k objA ha hpub hcont hb
  · exact setattr_node_clears_old (mobjSetattr st a k (Value.node b)).1 a b c k o1
      ho1 hpub hcont1 hold1 hb1 hbc
  · exact setattr_node_sets_container (mobjSetattr st a k (Value.node b)).1 a c k o1
      ho1 hpub hcont1 hc1

/-- Witness for C1 on the concrete three-node heap. -/
theorem containment_attr_reassignment_witness :
    ((getNode (mobjSetattr stW1 0 "child" (Value.node 1)).1 1).map
        (fun o => o.mContainer)) = some (some 0)
    ∧ ((getNode (mobjSetattr (mobjSetattr stW1 0 "child" (Value.node 1)).1 0 "child"
          (Value.node 2)).1 1).map (fun o => o.mContainer)) = some Option.none
    ∧ ((getNode (mobjSetattr (mobjSetattr stW1 0 "child" (Value.node 1)).1 0 "child"
          (Value.node 2)).1 2).map (fun o => o.mContainer)) = some (some 0) :=
  containment_attr_reassignment stW1 0 1 2 "child" _ rfl rfl rfl rfl rfl (by decide)

/-! ### Claim C5: assignment of a raw map -/

/-- C5 counterexample: assigning the raw map to the public attribute
"data" of a node of type "T" stores an MDict whose owner binding is empty:
its container is null and its feature is null, not the assigning node and
not "T.data" as the claim requires. -/
theorem rawdict_binding_counterexample :
    ((getDict (mobjSetattr stW5 0 "data" (Value.rawDict [("a", Value.int 1)])).1 1).map
        (fun d => (d.container, d.feature))) = some (Option.none, Option.none)
    ∧ ¬ (((getDict (mobjSetattr stW5 0 "data" (Value.rawDict [("a", Value.int 1)])).1 1).map
        (fun d => (d.container, d.feature))) = some (some 0, some "T.data")) := by
  constructor
  · rfl
  · decide

/-- C5 amended: a raw map assigned to a public attribute is wrapped into a
NotifyingMap, but with the MDict default bindings: no owning container, a
false containment flag and no feature name (unlike a raw sequence, which is
bound to the assigning node and the dotted feature name). -/
theorem rawdict_assignment_unbound (st : PState) (a : Nat) (k : String)
    (es : List (String × Value)) (self0 : MObj)
    (ha : getNode st a = some self0)
    (hpub : startsWithUnderscore k = false)
    (hfresh : getDict st st.nextId = Option.none) :
    ((getNode (mobjSetattr st a k (Value.rawDict es)).1 a).map
        (fun o => alistGet o.attrs k)) = some (some (Value.vdict st.nextId))
    ∧ ((getDict (mobjSetattr st a k (Value.rawDict es)).1 st.nextId).map dictRest)
        = some (es, true, [], Option.none, false, Option.none) := by
  rw [mobjSetattr, hpub]
  simp only [Bool.false_eq_true, if_false]
  rw [setattrPub_rawdict_unfold st a k es self0 ha]
  dsimp only
  rw [nextId_clearOldStep]
  constructor
  · have hFn : ∀ X : PState,
        getNode (if self0.mContainment.contains k then
          setValContainer X (Value.vdict st.nextId) (some a) else X) a = getNode X a := by
      intro X
      by_cases hcq : self0.mContainment.contains k = true
      · rw [if_pos hcq]; rfl
      · rw [if_neg hcq]
    rw [hFn, getNode_storeStep, if_pos rfl, getNode_setDicts, Option.map_map]
    have hrest := getNode_clearOldStep_rest st self0 k a
    rw [ha] at hrest
    obtain ⟨o, ho, hor⟩ := Option.map_eq_some'.mp hrest
    rw [ho, Option.map_some']
    simp only [Function.comp]
    rw [alistGet_set, if_pos rfl]
  · have hFd : ∀ X : PState,
        ((getDict (if self0.mContainment.contains k then
          setValContainer X (Value.vdict st.nextId) (some a) else X) st.nextId).map dictRest)
          = (getDict X st.nextId).map dictRest := by
      intro X
      by_cases hcq : self0.mContainment.contains k = true
      · rw [if_pos hcq, getDict_setValContainer_rest]
      · rw [if_neg hcq]
    rw [hFd, getDict_storeStep, getDict_setDicts,
      alistGet_append_fresh _ _ _ (dicts_clearOldStep_alistGet st self0 k st.nextId hfresh)]
    rfl

/-- Witness for C5's amended theorem on the concrete one-node heap. -/
theorem rawdict_assignment_unbound_witness :
    ((getNode (mobjSetattr stW5 0 "data" (Value.rawDict [("a", Value.int 1)])).1 0).map
        (fun o => alistGet o.attrs "data")) = some (some (Value.vdict stW5.nextId))
    ∧ ((getDict (mobjSetattr stW5 0 "data" (Value.rawDict [("a", Value.int 1)])).1
        stW5.nextId).map dictRest)
        = some ([("a", Value.int 1)], true, [], Option.none, false, Option.none) :=
  rawdict_assignment_unbound stW5 0 "data" [("a", Value.int 1)] _ rfl rfl rfl

/-! ### Claim C10: MDict.pop on an absent key -/

/-- C10: for a NotifyingMap and a key not present in it, pop(key, default)
does not raise, returns the default, leaves the whole state unchanged, and
still emits one REMOVE Notification with a null old value and the key as
position (when notification is required). -/
theorem mdictPop_absent_key (st : PState) (did : Nat) (k : String) (dflt : Value)
    (d0 : MDictObj)
    (hd : getDict st did = some d0)
    (hk : alistGet d0.entries k = Option.none)
    (hreq : mNotificationRequired d0.mAdapters d0.mDeliver = true) :
    mdictPop st did k dflt =
      (st,
       [{ notifier := Value.vdict did, eventType := some EventType.REMOVE,
          newValue := Value.none, oldValue := Value.none,
          position := Value.str k, feature := Option.none }],
       dflt) := by
  simp [mdictPop, hd, hk, isMObject, mNotifyEmit, hreq]

/-- Witness for C10 at a concrete map missing the key "b". -/
theorem mdictPop_absent_key_witness :
    mdictPop stW10 0 "b" (Value.int 7) =
      (stW10,
       [{ notifier := Value.vdict 0, eventType := some EventType.REMOVE,
          newValue := Value.none, oldValue := Value.none,
          position := Value.str "b", feature := Option.none }],
       Value.int 7) :=
  mdictPop_absent_key stW10 0 "b" (Value.int 7)
    { entries := [("a", Value.int 1)], mDeliver := true, mContainer := Option.none,
      mAdapters := [5], container := Option.none, containment := false,
      feature := Option.none }
    rfl rfl rfl

/-! ### Claim C9: assignment to an underscore attribute -/

/-- C9: assigning an attribute whose name starts with an underscore stores
the value directly and does nothing else: no Notification is emitted, no
allocation or wrapping happens (lists, dicts, adapters and the allocator
are untouched), no container back-reference is set or cleared, and every
node's public attributes, adapter list and delivery flag are unchanged;
only the assigned object's direct attribute storage gains the binding. -/
theorem underscore_attr_silent (st : PState) (a : Nat) (k : String) (v : Value)
    (h : startsWithUnderscore k = true) :
    (mobjSetattr st a k v).2 = []
    ∧ (mobjSetattr st a k v).1.lists = st.lists
    ∧ (mobjSetattr st a k v).1.dicts = st.dicts
    ∧ (mobjSetattr st a k v).1.adapters = st.adapters
    ∧ (mobjSetattr st a k v).1.nextId = st.nextId
    ∧ (∀ j, ((getNode (mobjSetattr st a k v).1 j).map (fun o => o.attrs))
        = (getNode st j).map (fun o => o.attrs))
    ∧ (∀ j, ((getNode (mobjSetattr st a k v).1 j).map (fun o => o.mContainer))
        = (getNode st j).map (fun o => o.mContainer))
    ∧ (∀ j, ((getNode (mobjSetattr st a k v).1 j).map (fun o => o.mAdapters))
        = (getNode st j).map (fun o => o.mAdapters))
    ∧ (∀ j, ((getNode (mobjSetattr st a k v).1 j).map (fun o => o.mDeliver))
        = (getNode st j).map (fun o => o.mDeliver))
    ∧ ((getNode (mobjSetattr st a k v).1 a).map (fun o => o.privAttrs)
        = (getNode st a).map (fun o => alistSet o.privAttrs k v)) := by
  have hs1 : (mobjSetattr st a k v).1 = { st with nodes := alistUpd st.nodes a (fun o => { o with privAttrs := alistSet o.privAttrs k v }) } := by
    simp [mobjSetattr, h]
  have hs2 : (mobjSetattr st a k v).2 = [] := by
    simp [mobjSetattr, h]
  rw [hs1, hs2]
  refine ⟨rfl, rfl, rfl, rfl, rfl, ?_, ?_, ?_, ?_, ?_⟩
  · intro j; rw [getNode_updNodes]
    by_cases hj : j = a
    · subst hj; rw [if_pos rfl, Option.map_map]; rfl
    · rw [if_neg hj]
  · intro j; rw [getNode_updNodes]
    by_cases hj : j = a
    · subst hj; rw [if_pos rfl, Option.map_map]; rfl
    · rw [if_neg hj]
  · intro j; rw [getNode_updNodes]
    by_cases hj : j = a
    · subst hj; rw [if_pos rfl, Option.map_map]; rfl
    · rw [if_neg hj]
  · intro j; rw [getNode_updNodes]
    by_cases hj : j = a
    · subst hj; rw [if_pos rfl, Option.map_map]; rfl
    · rw [if_neg hj]
  · rw [getNode_updNodes, if_pos rfl, Option.map_map]; rfl

/-- Witness for C9: assigning the underscore attribute "_x" on the concrete
heap emits nothing and leaves the allocator alone. -/
theorem underscore_attr_silent_witness :
    (startsWithUnderscore "_x" = true)
    ∧ (mobjSetattr stW5 0 "_x" (Value.int 1)).2 = []
    ∧ (mobjSetattr stW5 0 "_x" (Value.int 1)).1.nextId = stW5.nextId :=
  ⟨rfl, (underscore_attr_silent stW5 0 "_x" (Value.int 1) rfl).1,
    (underscore_attr_silent stW5 0 "_x" (Value.int 1) rfl).2.2.2.2.1⟩

/-! ### Claim C6: MList.insert -/

/-- C6 evaluates the code at the failing input: insert(0, "c") on the bound
list ["a", "b"] leaves the list as ["a", "b", "c"] (the body calls
list.append, so the value lands at the end, not at index 0), while the
single emitted Notification nevertheless reports eventType ADD, newValue
"c" and position 0. -/
theorem mlistInsert_appends_at_end :
    ((getList (mlistInsert stW6 0 0 (Value.str "c")).1 0).map (fun l => l.elems))
      = some [Value.str "a", Value.str "b", Value.str "c"]
    ∧ [Value.str "a", Value.str "b", Value.str "c"]
        ≠ [Value.str "c", Value.str "a", Value.str "b"]
    ∧ (mlistInsert stW6 0 0 (Value.str "c")).2
      = [{ notifier := Value.vlist 0, eventType := some EventType.ADD,
           newValue := Value.str "c", oldValue := Value.none,
           position := Value.int 0, feature := some "PO.items" }] := by
  refine ⟨rfl, ?_, rfl⟩
  intro hcontr
  have h1 : Value.str "a" = Value.str "c" := by
    injection hcontr
  injection h1 with h2
  exact absurd h2 (by decide)

/-! ### Claim C7: MList.extend -/

/-- The containment-propagation loop of MList.extend only ever assigns
mContainer fields, so every list keeps its elements, adapters, delivery
flag, owner, containment flag and feature. -/
theorem foldl_contain_shape (c : Option Nat) (q : Bool) (lid : Nat) :
    ∀ (vs : List Value) (s : PState),
      ((getList (vs.foldl
          (fun s2 v => if isMObject v && q then setValContainer s2 v c else s2) s)
        lid).map mlistShape) = (getList s lid).map mlistShape := by
  intro vs
  induction vs with
  | nil => intro s; rfl
  | cons x t ih =>
    intro s
    rw [List.foldl_cons, ih]
    by_cases hx : (isMObject x && q) = true
    · rw [if_pos hx, getList_setValContainer_shape]
    · rw [if_neg hx]

/-- C7 counterexample: extending the empty bound list by one element
appends at index 0, but the emitted ADD_MANY notification carries
position slice(0, 0), which under the half-open slice convention covers no
index at all, so it does not cover the appended span {0}. -/
theorem extend_slice_counterexample :
    ((mlistExtend stW7 0 [Value.str "x"]).2.map (fun n => n.position)) = [Value.slice 0 0]
    ∧ ((getList (mlistExtend stW7 0 [Value.str "x"]).1 0).map (fun l => l.elems))
        = some [Value.str "x"]
    ∧ ¬ sliceMem 0 0 0 := by
  refine ⟨rfl, rfl, ?_⟩
  intro h
  exact absurd h.2 (by decide)

/-- C7 amended: extend(vs) appends the elements and emits exactly one
batched ADD_MANY Notification with newValue vs, whose position is the
slice with start n and stop n + k - 1 — the index of the last appended
element, not the half-open bound n + k. -/
theorem extend_batched_notification (st : PState) (lid : Nat) (vs : List Value)
    (l0 : MListObj)
    (hl : getList st lid = some l0)
    (hreq : mNotificationRequired l0.mAdapters l0.mDeliver = true) :
    ((getList (mlistExtend st lid vs).1 lid).map (fun l => l.elems))
        = some (l0.elems ++ vs)
    ∧ (mlistExtend st lid vs).2 =
        [{ notifier := Value.vlist lid, eventType := some EventType.ADD_MANY,
           newValue := Value.rawList vs, oldValue := Value.none,
           position := Value.slice (l0.elems.length)
             ((l0.elems.length : Int) + (vs.length : Int) - 1),
           feature := l0.feature }] := by
  unfold mlistExtend
  rw [hl]
  dsimp only
  have hst1 : getList { st with lists := alistUpd st.lists lid (fun l => { l with elems := l.elems ++ vs }) } lid = some { l0 with elems := l0.elems ++ vs } := by
    rw [getList_updLists, if_pos rfl, hl, Option.map_some']
  have hshape := foldl_contain_shape l0.container l0.container.isSome lid vs { st with lists := alistUpd st.lists lid (fun l => { l with elems := l.elems ++ vs }) }
  rw [hst1, Option.map_some'] at hshape
  obtain ⟨l2, hl2, hl2s⟩ := Option.map_eq_some'.mp hshape
  simp only [mlistShape, Prod.mk.injEq] at hl2s
  obtain ⟨g1, g2, g3, g4, g5, g6⟩ := hl2s
  constructor
  · rw [hl2, Option.map_some', g1]
  · rw [hl2]
    simp only [Option.getD_some]
    rw [g1, g2, g3, g6, mNotifyEmit, hreq, if_pos rfl]
    have hp1 : ((l0.elems ++ vs).length : Int) - (vs.length : Int)
        = (l0.elems.length : Int) := by
      rw [List.length_append]
      push_cast
      ring
    have hp2 : ((l0.elems ++ vs).length : Int) - 1
        = (l0.elems.length : Int) + (vs.length : Int) - 1 := by
      rw [List.length_append]
      push_cast
      ring
    rw [hp1, hp2]

/-- Witness for C7's amended theorem: extending ["a", "b"] by two elements
emits one ADD_MANY with position slice(2, 3). -/
theorem extend_batched_notification_witness :
    ((getList (mlistExtend stW6 0 [Value.str "x", Value.str "y"]).1 0).map
        (fun l => l.elems))
      = some [Value.str "a", Value.str "b", Value.str "x", Value.str "y"]
    ∧ (mlistExtend stW6 0 [Value.str "x", Value.str "y"]).2 =
        [{ notifier := Value.vlist 0, eventType := some EventType.ADD_MANY,
           newValue := Value.rawList [Value.str "x", Value.str "y"],
           oldValue := Value.none,
           position := Value.slice 2 3, feature := some "PO.items" }] :=
  extend_batched_notification stW6 0 [Value.str "x", Value.str "y"] _ rfl rfl

/-! ### Claim C2: which adapters a dispatch invokes -/

/-- When no callback in the current list mutates the adapter list, the live
loop starting at cursor i invokes exactly the remaining adapters in order. -/
theorem runLive_keep (env : Nat → DEffect) :
    ∀ (fuel i : Nat) (cur : List Nat), (∀ a ∈ cur, env a = DEffect.keep) →
      cur.length ≤ i + fuel → runLive env fuel i cur = cur.drop i := by
  intro fuel
  induction fuel with
  | zero =>
    intro i cur h hle
    rw [runLive, List.drop_eq_nil_of_le (by omega)]
  | succ f ih =>
    intro i cur h hle
    by_cases hi : i < cur.length
    · rw [runLive]
      simp only [hi, dif_pos]
      have hk : env (cur.get ⟨i, hi⟩) = DEffect.keep := h _ (List.get_mem cur i hi)
      have heff : applyEffect env (cur.get ⟨i, hi⟩) cur = cur := by
        simp only [applyEffect]
        rw [hk]
      rw [heff, ih (i + 1) cur h (by omega), List.drop_eq_getElem_cons hi]
      rfl
    · rw [runLive]
      simp only [hi, dif_neg, not_false_iff]
      rw [List.drop_eq_nil_of_le (by omega)]

/-- C2 counterexample as stated: adapter 0's callback registers adapter 1
during dispatch; the live loop of mNotify then also invokes adapter 1, so
the set of invoked adapters is not the frozen start-of-dispatch snapshot
[0]. -/
theorem mNotify_snapshot_counterexample :
    mNotifyLive envW2 true [0] 5 = [0, 1] ∧ ([0, 1] : List Nat) ≠ [0] := by
  constructor
  · rfl
  · decide

/-- C2 amended: mNotify iterates the adapter list live, not a frozen
snapshot.  When no callback mutates the adapter list, the adapters invoked
are exactly those present at the start, in registration order; a callback
that mutates the list changes the iteration in progress (see the
counterexample). -/
theorem mNotify_live_unmutated (env : Nat → DEffect) (ads : List Nat)
    (h : ∀ a ∈ ads, env a = DEffect.keep) :
    mNotifyLive env true ads ads.length = ads := by
  by_cases hne : ads.length > 0
  · rw [mNotifyLive]
    have hreq : mNotificationRequired ads true = true := by
      simp [mNotificationRequired, hne]
    rw [hreq]
    simp only [if_true]
    rw [runLive_keep env ads.length 0 ads h (by omega)]
    exact List.drop_zero ads
  · have hnil : ads = [] := by
      cases ads with
      | nil => rfl
      | cons x t => simp at hne
    subst hnil
    rfl

/-- Witness for C2's amended theorem: three adapters with inert callbacks
are all invoked, in order. -/
theorem mNotify_live_unmutated_witness :
    mNotifyLive (fun _ => DEffect.keep) true [4, 2, 9] 3 = [4, 2, 9] :=
  mNotify_live_unmutated (fun _ => DEffect.keep) [4, 2, 9] (fun _ _ => rfl)

/-! ### Claim C8: a raising callback aborts dispatch but not the mutation -/

/-- Sequential dispatch stops at the first raising callback: the callbacks
before it all run, the raiser runs, nothing after it runs, and the error is
the overall outcome. -/
theorem dispatchExcept_stops_at_error (n : Notification) (e : String)
    (f : Notification → Except String Unit) :
    ∀ (pre : List (Nat × (Notification → Except String Unit))) (i : Nat)
      (post : List (Nat × (Notification → Except String Unit))),
      (∀ p ∈ pre, p.2 n = Except.ok ()) → f n = Except.error e →
      dispatchExcept (pre ++ (i, f) :: post) n =
        (pre.map (fun p => p.1) ++ [i], Except.error e) := by
  intro pre
  induction pre with
  | nil =>
    intro i post _ hf
    simp [dispatchExcept, hf]
  | cons p t ih =>
    intro i post hpre hf
    obtain ⟨j, g⟩ := p
    have hg : g n = Except.ok () := hpre (j, g) (List.mem_cons_self _ _)
    have ht : ∀ q ∈ t, q.2 n = Except.ok () :=
      fun q hq => hpre q (List.mem_cons_of_mem _ hq)
    simp only [List.cons_append, dispatchExcept, hg, List.append_eq]
    rw [ih i post ht hf]
    simp

/-- C8: when an adapter callback raises during the dispatch triggered by
MList.append, the element has already been appended and stays appended (no
rollback), the callbacks before the raiser ran, the raiser ran, no later
adapter is invoked (no isolation or retry), and the exception is the
outcome of the whole mutating call. -/
theorem append_callback_exception (lid : Nat) (elems : List Value)
    (feature : Option String) (v : Value) (e : String)
    (pre post : List (Nat × (Notification → Except String Unit))) (i : Nat)
    (f : Notification → Except String Unit)
    (hpre : ∀ p ∈ pre, p.2 (appendNotificationOf lid elems v feature) = Except.ok ())
    (hf : f (appendNotificationOf lid elems v feature) = Except.error e) :
    mlistAppendExc lid elems true feature (pre ++ (i, f) :: post) v =
      (elems ++ [v], pre.map (fun p => p.1) ++ [i], Except.error e) := by
  have hreq : mNotificationRequired ((pre ++ (i, f) :: post).map (fun p => p.1)) true = true := by
    simp [mNotificationRequired]
  rw [mlistAppendExc, hreq]
  simp only [if_true]
  rw [dispatchExcept_stops_at_error (appendNotificationOf lid elems v feature) e f pre i post hpre hf]

/-- Witness for C8: with one succeeding callback, then a raiser, then one
more callback, appending "x" to the empty list leaves ["x"] in place,
invokes exactly adapters 1 and 2, and surfaces the error. -/
theorem append_callback_exception_witness :
    mlistAppendExc 0 [] true Option.none
        [(1, cbOkW), (2, cbBoomW), (3, cbOkW)] (Value.str "x") =
      ([Value.str "x"], [1, 2], Except.error "boom") :=
  append_callback_exception 0 [] Option.none (Value.str "x") "boom"
    [(1, cbOkW)] [(3, cbOkW)] 2 cbBoomW
    (by intro p hp; simp at hp; subst hp; rfl) rfl

/-! ### Claim C3: event-type filtering in the two adapter kinds -/

/-- C3 counterexample: an AllContent adapter whose accepted set is only
{SET} still invokes its callback for an ADD notification, because
AllContentNotificationAdapter.notify never consults the accepted set.  This
refutes the claim that every adapter (Direct or AllContent) forwards iff
the event type is accepted. -/
theorem allContent_ignores_filter_counterexample :
    (allContentNotify acStW 0 [EventType.SET] nW3 9).2 = true
    ∧ eventAccepted [EventType.SET] nW3 = false :=
  ⟨rfl, rfl⟩

/-- C3 amended: a Direct adapter forwards a notification to its callback
iff the notification's event type is in the accepted set; an AllContent
adapter forwards every notification to its callback unconditionally,
ignoring the accepted set. -/
theorem adapter_event_filtering :
    (∀ (ets : List EventType) (n : Notification) (et : EventType),
        n.eventType = some et →
        (directNotify ets n = some n ↔ ets.contains et = true))
    ∧ (∀ (st : PState) (aid : Nat) (ets : List EventType) (n : Notification)
        (fuel : Nat), (allContentNotify st aid ets n fuel).2 = true) := by
  constructor
  · intro ets n et hET
    have hacc : eventAccepted ets n = ets.contains et := by
      simp [eventAccepted, hET]
    constructor
    · intro hd
      by_contra hc
      have hfalse : ets.contains et = false := by
        cases hcc : ets.contains et
        · rfl
        · exact absurd hcc hc
      rw [directNotify, hacc, hfalse] at hd
      simp at hd
    · intro hm
      rw [directNotify, hacc, hm]
      simp
  · intro st aid ets n fuel
    rfl

/-- Witness for C3's amended theorem at concrete inputs. -/
theorem adapter_event_filtering_witness :
    (nW3.eventType = some EventType.ADD)
    ∧ (directNotify [EventType.ADD] nW3 = some nW3
        ↔ ([EventType.ADD].contains EventType.ADD) = true)
    ∧ (allContentNotify acStW 0 [EventType.SET] nW3 9).2 = true :=
  ⟨rfl, adapter_event_filtering.1 [EventType.ADD] nW3 EventType.ADD rfl,
    adapter_event_filtering.2 acStW 0 [EventType.SET] nW3 9⟩

/-! ### Claim C4: AllContent unsubscription from the old value -/

/-- C4 evaluates the code at the failing input: node 1 is subscribed to
AllContent adapter 0; a notification arrives whose oldValue is node 1 (a
single, non-iterable Node) and whose newValue is None.  The walk in the
TypeError branch is applied to notification.newValue (adapters.py line 74)
instead of the old value, so the state is unchanged and node 1 is still
subscribed, although the claim requires it to be removed from the
subscribed set. -/
theorem allContent_removes_wrong_value :
    (allContentNotify acStW 0 [EventType.REMOVE] nW4 9).1 = acStW
    ∧ ((getNode ((allContentNotify acStW 0 [EventType.REMOVE] nW4 9).1) 1).map
        (fun o => o.mAdapters)) = some [0] :=
  ⟨rfl, rfl⟩

end PMF
